import Mathlib

/-!
Shallow embedding of the go-3d software 3D renderer (repository novvoo/go-3d).

Scalars: the Go code computes in float64; the embedding uses ℚ, the standard
exact idealization, so every definition is executable and decidable.  The two
transcendental library calls the code makes, math.Sqrt and math.Tan, have no
exact rational counterpart; they are passed in as explicit function parameters
(`sqrt : ℚ → ℚ`, `tan : ℚ → ℚ`), and theorems that genuinely depend on their
numeric behaviour take the needed facts (for example `sqrt (v.Dot v) * sqrt
(v.Dot v) = v.Dot v`) as satisfiable hypotheses discharged by concrete
witnesses.  The float literal 1e-10 is modelled as the exact rational
1 / 10 ^ 10.
-/

namespace Go3D

/-- The epsilon threshold 1e-10 used throughout the Go source. -/
def eps : ℚ := 1 / 10 ^ 10

/-- Vector3 from the source: three scalar components X, Y, Z (float64). -/
structure Vector3 where
  X : ℚ
  Y : ℚ
  Z : ℚ
deriving DecidableEq, Repr

/-- NewVector3 from the source. -/
def NewVector3 (x y z : ℚ) : Vector3 := ⟨x, y, z⟩

/-- Vector3.Add from the source. -/
def Vector3.Add (v other : Vector3) : Vector3 :=
  ⟨v.X + other.X, v.Y + other.Y, v.Z + other.Z⟩

/-- Vector3.Sub from the source. -/
def Vector3.Sub (v other : Vector3) : Vector3 :=
  ⟨v.X - other.X, v.Y - other.Y, v.Z - other.Z⟩

/-- Vector3.Scale from the source. -/
def Vector3.Scale (v : Vector3) (s : ℚ) : Vector3 :=
  ⟨v.X * s, v.Y * s, v.Z * s⟩

/-- Vector3.Dot from the source. -/
def Vector3.Dot (v other : Vector3) : ℚ :=
  v.X * other.X + v.Y * other.Y + v.Z * other.Z

/-- Vector3.Cross from the source. -/
def Vector3.Cross (v other : Vector3) : Vector3 :=
  ⟨v.Y * other.Z - v.Z * other.Y,
   v.Z * other.X - v.X * other.Z,
   v.X * other.Y - v.Y * other.X⟩

/-- Vector3.Length from the source: math.Sqrt(x*x + y*y + z*z), with the
square root passed in as a parameter. -/
def Vector3.Length (sqrt : ℚ → ℚ) (v : Vector3) : ℚ :=
  sqrt (v.X * v.X + v.Y * v.Y + v.Z * v.Z)

/-- Vector3.Normalize from the source: if the length is below 1e-10 the zero
vector is returned, otherwise the vector scaled by 1/length. -/
def Vector3.Normalize (sqrt : ℚ → ℚ) (v : Vector3) : Vector3 :=
  let length := v.Length sqrt
  if length < eps then ⟨0, 0, 0⟩ else v.Scale (1 / length)

/-- Triangle from the source: three Vector3 vertices. -/
structure Triangle where
  V0 : Vector3
  V1 : Vector3
  V2 : Vector3
deriving DecidableEq, Repr

/-- Triangle.Normal from the source: cross product of the two edges
V1-V0 and V2-V0; if its length is below 1e-10 the default up vector
{0,1,0} is returned, otherwise the normalized cross product. -/
def Triangle.Normal (sqrt : ℚ → ℚ) (t : Triangle) : Vector3 :=
  let edge1 := t.V1.Sub t.V0
  let edge2 := t.V2.Sub t.V0
  let normal := edge1.Cross edge2
  if normal.Length sqrt < eps then ⟨0, 1, 0⟩ else normal.Normalize sqrt

/-- Triangle.Center from the source: centroid (V0+V1+V2)/3. -/
def Triangle.Center (t : Triangle) : Vector3 :=
  ((t.V0.Add t.V1).Add t.V2).Scale (1 / 3)

/-- Matrix4 from the source: 16 float64 scalars in row-major order.  The Go
array indices 0..15 become the fields m0..m15. -/
structure Matrix4 where
  m0 : ℚ
  m1 : ℚ
  m2 : ℚ
  m3 : ℚ
  m4 : ℚ
  m5 : ℚ
  m6 : ℚ
  m7 : ℚ
  m8 : ℚ
  m9 : ℚ
  m10 : ℚ
  m11 : ℚ
  m12 : ℚ
  m13 : ℚ
  m14 : ℚ
  m15 : ℚ
deriving DecidableEq, Repr

/-- Identity from the source. -/
def Identity : Matrix4 :=
  ⟨1, 0, 0, 0,
   0, 1, 0, 0,
   0, 0, 1, 0,
   0, 0, 0, 1⟩

/-- Translation from the source. -/
def Translation (x y z : ℚ) : Matrix4 :=
  ⟨1, 0, 0, x,
   0, 1, 0, y,
   0, 0, 1, z,
   0, 0, 0, 1⟩

/-- The x row of the homogeneous product computed inside TransformVector. -/
def Matrix4.homX (m : Matrix4) (v : Vector3) : ℚ :=
  m.m0 * v.X + m.m1 * v.Y + m.m2 * v.Z + m.m3

/-- The y row of the homogeneous product computed inside TransformVector. -/
def Matrix4.homY (m : Matrix4) (v : Vector3) : ℚ :=
  m.m4 * v.X + m.m5 * v.Y + m.m6 * v.Z + m.m7

/-- The z row of the homogeneous product computed inside TransformVector. -/
def Matrix4.homZ (m : Matrix4) (v : Vector3) : ℚ :=
  m.m8 * v.X + m.m9 * v.Y + m.m10 * v.Z + m.m11

/-- The w row of the homogeneous product computed inside TransformVector. -/
def Matrix4.homW (m : Matrix4) (v : Vector3) : ℚ :=
  m.m12 * v.X + m.m13 * v.Y + m.m14 * v.Z + m.m15

/-- Matrix4.TransformVector from the source: computes x, y, z, w of the
homogeneous product and perspective-divides by w exactly when
math.Abs(w) > 1e-10 and math.Abs(w-1.0) > 1e-10; otherwise the undivided
x, y, z are returned. -/
def Matrix4.TransformVector (m : Matrix4) (v : Vector3) : Vector3 :=
  if eps < |m.homW v| ∧ eps < |m.homW v - 1| then
    ⟨m.homX v / m.homW v, m.homY v / m.homW v, m.homZ v / m.homW v⟩
  else
    ⟨m.homX v, m.homY v, m.homZ v⟩

/-- Perspective from the source: if |fov|, |aspect| or |far-near| is below
1e-10 the identity matrix is returned; otherwise the standard perspective
matrix with f = 1/tan(fov/2).  The tangent is passed in as a parameter. -/
def Perspective (tan : ℚ → ℚ) (fov aspect near far : ℚ) : Matrix4 :=
  if |fov| < eps ∨ |aspect| < eps ∨ |far - near| < eps then Identity
  else
    let f := 1 / tan (fov / 2)
    ⟨f / aspect, 0, 0, 0,
     0, f, 0, 0,
     0, 0, (far + near) / (near - far), 2 * far * near / (near - far),
     0, 0, -1, 0⟩

/-- LookAt from the source: orthonormal basis from cross products, with the
degenerate-case fallbacks (zero forward becomes {0,0,1}; a right vector of
length below 1e-10 is rebuilt from an alternate up axis chosen by |forward.Y|
against 0.9). -/
def LookAt (sqrt : ℚ → ℚ) (eye target up : Vector3) : Matrix4 :=
  let forward0 := (target.Sub eye).Normalize sqrt
  let forward := if forward0.Length sqrt < eps then (⟨0, 0, 1⟩ : Vector3) else forward0
  let right0 := (forward.Cross up).Normalize sqrt
  let right :=
    if right0.Length sqrt < eps then
      if |forward.Y| < 9 / 10 then (forward.Cross ⟨0, 1, 0⟩).Normalize sqrt
      else (forward.Cross ⟨1, 0, 0⟩).Normalize sqrt
    else right0
  let newUp := (right.Cross forward).Normalize sqrt
  ⟨right.X, right.Y, right.Z, -(right.Dot eye),
   newUp.X, newUp.Y, newUp.Z, -(newUp.Dot eye),
   -forward.X, -forward.Y, -forward.Z, forward.Dot eye,
   0, 0, 0, 1⟩

/-- The two transcendental library functions the renderer uses, passed in as
an environment: math.Sqrt and math.Tan. -/
structure RealFns where
  sqrt : ℚ → ℚ
  tan : ℚ → ℚ

/-- Camera from the source. -/
structure Camera where
  Position : Vector3
  Target : Vector3
  Up : Vector3
  FOV : ℚ
  Near : ℚ
  Far : ℚ
deriving DecidableEq, Repr

/-- NewCamera from the source. -/
def NewCamera : Camera :=
  { Position := ⟨0, 0, -5⟩, Target := ⟨0, 0, 0⟩, Up := ⟨0, 1, 0⟩,
    FOV := 1, Near := 1 / 10, Far := 100 }

/-- An RGB colour triple, the Go [3]float64 with indices 0, 1, 2. -/
structure Color3 where
  c0 : ℚ
  c1 : ℚ
  c2 : ℚ
deriving DecidableEq, Repr

/-- Light from the source. -/
structure Light where
  Position : Vector3
  Color : Color3
  Intensity : ℚ
deriving DecidableEq, Repr

/-- Renderer from the source.  The cairo Surface/Context handle, the
RenderMode dispatch tag and the Antialias flag live on the external drawing
surface side; the drawing algorithms are modelled per mode below, so only the
fields they read are kept. -/
structure Renderer where
  Width : ℤ
  Height : ℤ
  Camera : Camera
  Lights : List Light
deriving DecidableEq, Repr

/-- ProjectToScreen from the source: view matrix via LookAt(camera), the
projection matrix via Perspective(camera FOV, Width/Height, near, far), view
then projection applied to v, then the map of clip x, y to pixel coordinates;
returns (screen x, screen y, projected z). -/
def ProjectToScreen (env : RealFns) (r : Renderer) (v : Vector3) : ℚ × ℚ × ℚ :=
  let aspect : ℚ := (r.Width : ℚ) / (r.Height : ℚ)
  let view := LookAt env.sqrt r.Camera.Position r.Camera.Target r.Camera.Up
  let projection := Perspective env.tan r.Camera.FOV aspect r.Camera.Near r.Camera.Far
  let viewSpace := view.TransformVector v
  let projected := projection.TransformVector viewSpace
  ((projected.X + 1) * (r.Width : ℚ) / 2, (1 - projected.Y) * (r.Height : ℚ) / 2, projected.Z)

/-- The three projected z values of a triangle's vertices, as computed at the
top of drawWireframe/drawFlat/drawShaded/DrawMeshWithGradient. -/
def projTriZ (env : RealFns) (r : Renderer) (tri : Triangle) : ℚ × ℚ × ℚ :=
  ((ProjectToScreen env r tri.V0).2.2,
   (ProjectToScreen env r tri.V1).2.2,
   (ProjectToScreen env r tri.V2).2.2)

/-- CalculateLighting from the source: baseColor unchanged when the light
list is empty; otherwise ambient 0.2 plus accumulated per-light diffuse
max(0, normal·lightDir) * intensity * light colour, multiplied by baseColor
per channel and clamped to 1. -/
def CalculateLighting (env : RealFns) (r : Renderer) (position normal : Vector3)
    (baseColor : Color3) : Color3 :=
  if r.Lights.length = 0 then baseColor
  else
    let diffuse := r.Lights.foldl
      (fun (acc : Color3) (light : Light) =>
        let lightDir := (light.Position.Sub position).Normalize env.sqrt
        let intensity := max 0 (normal.Dot lightDir) * light.Intensity
        ⟨acc.c0 + light.Color.c0 * intensity,
         acc.c1 + light.Color.c1 * intensity,
         acc.c2 + light.Color.c2 * intensity⟩)
      ⟨0, 0, 0⟩
    ⟨min 1 ((1 / 5 + diffuse.c0) * baseColor.c0),
     min 1 ((1 / 5 + diffuse.c1) * baseColor.c1),
     min 1 ((1 / 5 + diffuse.c2) * baseColor.c2)⟩

/-- Mesh from the source: ordered vertices and ordered triangles. -/
structure Mesh where
  Vertices : List Vector3
  Triangles : List Triangle
deriving DecidableEq, Repr

/-- triangleWithDepth from the source: a triangle together with its average
projected depth and its fill colour. -/
structure TriangleWithDepth where
  tri : Triangle
  depth : ℚ
  color : Color3
deriving DecidableEq, Repr

instance : Inhabited TriangleWithDepth :=
  ⟨⟨⟨⟨0, 0, 0⟩, ⟨0, 0, 0⟩, ⟨0, 0, 0⟩⟩, 0, ⟨0, 0, 0⟩⟩⟩

/-- The descending-depth order used by the painter's algorithm: a precedes b
when b.depth ≤ a.depth (farthest first). -/
def depthGE (a b : TriangleWithDepth) : Prop := b.depth ≤ a.depth

instance : DecidableRel depthGE :=
  fun a b => inferInstanceAs (Decidable (b.depth ≤ a.depth))

instance : IsTotal TriangleWithDepth depthGE :=
  ⟨fun a b => le_total b.depth a.depth⟩

instance : IsTrans TriangleWithDepth depthGE :=
  ⟨fun _ _ _ h1 h2 => le_trans h2 h1⟩

/-- The sort.Slice call of drawFlat/drawShaded/DrawMeshWithGradient with
less(i, j) = depth i > depth j.  Go's sort guarantees only that the result is
a permutation of the input ordered by the less predicate (stability is not
guaranteed); an insertion sort under the complementary total preorder depthGE
satisfies exactly that contract. -/
def sortByDepthDesc (l : List TriangleWithDepth) : List TriangleWithDepth :=
  l.insertionSort depthGE

/-- A draw command issued to the cairo context: one stroked or one filled
triangle path, in screen coordinates. -/
inductive DrawEvent where
  | stroke (x0 y0 x1 y1 x2 y2 : ℚ) (color : Color3)
  | fill (x0 y0 x1 y1 x2 y2 : ℚ) (color : Color3)
deriving DecidableEq, Repr

/-- The stroke command drawWireframe issues for one surviving triangle. -/
def strokeEvent (env : RealFns) (r : Renderer) (color : Color3) (tri : Triangle) : DrawEvent :=
  .stroke (ProjectToScreen env r tri.V0).1 (ProjectToScreen env r tri.V0).2.1
    (ProjectToScreen env r tri.V1).1 (ProjectToScreen env r tri.V1).2.1
    (ProjectToScreen env r tri.V2).1 (ProjectToScreen env r tri.V2).2.1 color

/-- The fill command drawFlat/drawShaded/DrawMeshWithGradient issue for one
sorted triangle. -/
def fillEvent (env : RealFns) (r : Renderer) (td : TriangleWithDepth) : DrawEvent :=
  .fill (ProjectToScreen env r td.tri.V0).1 (ProjectToScreen env r td.tri.V0).2.1
    (ProjectToScreen env r td.tri.V1).1 (ProjectToScreen env r td.tri.V1).2.1
    (ProjectToScreen env r td.tri.V2).1 (ProjectToScreen env r td.tri.V2).2.1 td.color

/-- drawWireframe from the source: per triangle, project the three vertices
and skip the triangle when any projected z is outside [-1, 1]; otherwise
stroke its edges in the flat colour. -/
def drawWireframe (env : RealFns) (r : Renderer) (mesh : Mesh) (color : Color3) :
    List DrawEvent :=
  if mesh.Triangles = [] then []
  else
    mesh.Triangles.filterMap fun tri =>
      let z0 := (projTriZ env r tri).1
      let z1 := (projTriZ env r tri).2.1
      let z2 := (projTriZ env r tri).2.2
      if z0 < -1 ∨ z0 > 1 ∨ z1 < -1 ∨ z1 > 1 ∨ z2 < -1 ∨ z2 > 1 then none
      else some (strokeEvent env r color tri)

/-- The collection loop of drawFlat: project each triangle's z values, skip
the triangle when z0 < -1 or z1 < -1 or z2 < -1, otherwise record it with its
average depth and the flat colour. -/
def flatVisible (env : RealFns) (r : Renderer) (mesh : Mesh) (color : Color3) :
    List TriangleWithDepth :=
  mesh.Triangles.filterMap fun tri =>
    let z0 := (projTriZ env r tri).1
    let z1 := (projTriZ env r tri).2.1
    let z2 := (projTriZ env r tri).2.2
    if z0 < -1 ∨ z1 < -1 ∨ z2 < -1 then none
    else some ⟨tri, (z0 + z1 + z2) / 3, color⟩

/-- The fill order of drawFlat: surviving triangles sorted farthest first. -/
def flatFillOrder (env : RealFns) (r : Renderer) (mesh : Mesh) (color : Color3) :
    List TriangleWithDepth :=
  sortByDepthDesc (flatVisible env r mesh color)

/-- drawFlat from the source: early return on an empty mesh, then the
depth-sorted surviving triangles are filled in order. -/
def drawFlat (env : RealFns) (r : Renderer) (mesh : Mesh) (color : Color3) :
    List DrawEvent :=
  if mesh.Triangles = [] then []
  else (flatFillOrder env r mesh color).map (fillEvent env r)

/-- The collection loop of drawShaded: the same z-range skip as drawFlat,
then backface culling (normal·viewDir < 0 discards), then the lit colour is
computed once at the centroid. -/
def shadedVisible (env : RealFns) (r : Renderer) (mesh : Mesh) (color : Color3) :
    List TriangleWithDepth :=
  mesh.Triangles.filterMap fun tri =>
    let z0 := (projTriZ env r tri).1
    let z1 := (projTriZ env r tri).2.1
    let z2 := (projTriZ env r tri).2.2
    if z0 < -1 ∨ z1 < -1 ∨ z2 < -1 then none
    else
      let avgDepth := (z0 + z1 + z2) / 3
      let normal := tri.Normal env.sqrt
      let viewDir := (r.Camera.Position.Sub tri.Center).Normalize env.sqrt
      if normal.Dot viewDir < 0 then none
      else some ⟨tri, avgDepth, CalculateLighting env r tri.Center normal color⟩

/-- The fill order of drawShaded: surviving triangles sorted farthest first. -/
def shadedFillOrder (env : RealFns) (r : Renderer) (mesh : Mesh) (color : Color3) :
    List TriangleWithDepth :=
  sortByDepthDesc (shadedVisible env r mesh color)

/-- drawShaded from the source: early return on an empty mesh, then the
depth-sorted surviving triangles are filled in order with their lit colours. -/
def drawShaded (env : RealFns) (r : Renderer) (mesh : Mesh) (color : Color3) :
    List DrawEvent :=
  if mesh.Triangles = [] then []
  else (shadedFillOrder env r mesh color).map (fillEvent env r)

/-- The collection loop of DrawMeshWithGradient: the same z-range skip as
drawFlat, with the colour blended between color1 and color2 by the normalized
depth t = (avgDepth + 1) / 2. -/
def gradientVisible (env : RealFns) (r : Renderer) (mesh : Mesh)
    (color1 color2 : Color3) : List TriangleWithDepth :=
  mesh.Triangles.filterMap fun tri =>
    let z0 := (projTriZ env r tri).1
    let z1 := (projTriZ env r tri).2.1
    let z2 := (projTriZ env r tri).2.2
    if z0 < -1 ∨ z1 < -1 ∨ z2 < -1 then none
    else
      let avgDepth := (z0 + z1 + z2) / 3
      let t := (avgDepth + 1) / 2
      some ⟨tri, avgDepth,
        ⟨color1.c0 * (1 - t) + color2.c0 * t,
         color1.c1 * (1 - t) + color2.c1 * t,
         color1.c2 * (1 - t) + color2.c2 * t⟩⟩

/-- The fill order of DrawMeshWithGradient. -/
def gradientFillOrder (env : RealFns) (r : Renderer) (mesh : Mesh)
    (color1 color2 : Color3) : List TriangleWithDepth :=
  sortByDepthDesc (gradientVisible env r mesh color1 color2)

/-- DrawMeshWithGradient from the source. -/
def DrawMeshWithGradient (env : RealFns) (r : Renderer) (mesh : Mesh)
    (color1 color2 : Color3) : List DrawEvent :=
  if mesh.Triangles = [] then []
  else (gradientFillOrder env r mesh color1 color2).map (fillEvent env r)

/-- AnimationConfig from the source. -/
structure AnimationConfig where
  Width : ℤ
  Height : ℤ
  FPS : ℤ
  Duration : ℚ
  OutputFile : String
  TempDir : String
  Quality : ℤ
  CleanupTemp : Bool
  Workers : ℤ
deriving DecidableEq, Repr

/-- DefaultAnimationConfig from the source. -/
def DefaultAnimationConfig : AnimationConfig :=
  { Width := 1920, Height := 1080, FPS := 30, Duration := 10,
    OutputFile := "animation.mp4", TempDir := "temp_frames", Quality := 23,
    CleanupTemp := true, Workers := 1 }

/-- Go's int(x) conversion of a float64: truncation toward zero. -/
def truncInt (q : ℚ) : ℤ := if 0 ≤ q then ⌊q⌋ else ⌈q⌉

/-- The frame count computed by GenerateFrames:
totalFrames := int(float64(FPS) * Duration). -/
def totalFrames (fps : ℤ) (duration : ℚ) : ℤ := truncInt ((fps : ℚ) * duration)

/-- Decimal digits of a natural number, for the %04d format. -/
def natDigits (n : ℕ) : ℕ := (Nat.toDigits 10 n).length

/-- The fmt.Sprintf %04d format: decimal, left-padded with zeros to at least
four characters. -/
def pad4 (n : ℕ) : String :=
  let s := toString n
  String.mk (List.replicate (4 - s.length) (Char.ofNat 48)) ++ s

/-- The frame file name fmt.Sprintf("frame_%04d.png", frame). -/
def frameName (frame : ℕ) : String := "frame_" ++ pad4 frame ++ ".png"

/-- The normalized time computed for a frame in both generation loops:
t := float64(frame-1) / float64(totalFrames). -/
def frameTime (total frame : ℕ) : ℚ := ((frame : ℚ) - 1) / (total : ℚ)

/-- The frame indices both generation loops iterate over:
for frame := 1; frame <= totalFrames; frame++ (frame 0 is never produced). -/
def frameIndices (total : ℕ) : List ℕ := (List.range total).map (fun k => k + 1)

/-- The file one frame job produces: its name and its content.  The caller's
render callback is abstracted as a function of the frame index and the
normalized time, which is exactly the data the Go code passes it. -/
def frameOutput {α : Type} (render : ℕ → ℚ → α) (total frame : ℕ) : String × α :=
  (frameName frame, render frame (frameTime total frame))

/-- generateFramesSingleThread from the source: frames 1..totalFrames
rendered strictly in index order, each saved under its frame name. -/
def generateFramesSingleThread {α : Type} (render : ℕ → ℚ → α) (total : ℕ) :
    List (String × α) :=
  (frameIndices total).map (frameOutput render total)

/-- The jobs one worker of generateFramesMultiThread consumes, under a given
assignment of each frame index to the worker that pulls it from the shared
jobs channel. -/
def workerJobs (total : ℕ) {W : ℕ} (assign : ℕ → Fin W) (w : Fin W) : List ℕ :=
  (frameIndices total).filter (fun f => assign f = w)

/-- generateFramesMultiThread from the source, for an arbitrary resolution of
the scheduling nondeterminism: each frame index 1..totalFrames is consumed by
exactly one worker (the assignment function), each worker renders its frames
with its own renderer and writes the file named by the frame index.  The run's
output is the multiset of files written by all workers together. -/
def generateFramesMultiThread {α : Type} (render : ℕ → ℚ → α) (total : ℕ)
    {W : ℕ} (assign : ℕ → Fin W) : Multiset (String × α) :=
  ∑ w : Fin W, ((workerJobs total assign w).map (frameOutput render total) : Multiset (String × α))

/-- GenerateFramesOnly from the source, as a function of the configuration:
it saves TempDir, overwrites TempDir with outputDir and CleanupTemp with
false, runs GenerateFrames (whose success or failure is the genResult
parameter), and a deferred assignment restores TempDir — and only TempDir —
on both the success and the error path. -/
def GenerateFramesOnly (c : AnimationConfig) (outputDir : String)
    (genResult : Except String Unit) : AnimationConfig × Except String Unit :=
  let originalTempDir := c.TempDir
  let c1 := { c with TempDir := outputDir, CleanupTemp := false }
  match genResult with
  | .error e => ({ c1 with TempDir := originalTempDir }, .error e)
  | .ok _ => ({ c1 with TempDir := originalTempDir }, .ok ())

/-- The cleanup decision inside Generate: the temp directory is removed
exactly when Config.CleanupTemp is set. -/
def generateRunsCleanup (c : AnimationConfig) : Bool := c.CleanupTemp

/-- CameraKeyframe from the source. -/
structure CameraKeyframe where
  Time : ℚ
  Position : Vector3
  Target : Vector3
  FOV : ℚ
deriving DecidableEq, Repr

/-- The zero value a Go CameraKeyframe variable has before the bracket search
assigns it. -/
def zeroKeyframe : CameraKeyframe := ⟨0, ⟨0, 0, 0⟩, ⟨0, 0, 0⟩, 0⟩

instance : Inhabited CameraKeyframe := ⟨zeroKeyframe⟩

/-- InterpolatedCameraPath from the source; the SmoothFunction field is a
nilable Go function value, hence an Option. -/
structure InterpolatedCameraPath where
  Keyframes : List CameraKeyframe
  SmoothFunction : Option (ℚ → ℚ)

/-- Smoothstep from the source. -/
def Smoothstep (t : ℚ) : ℚ :=
  if t < 0 then 0
  else if t > 1 then 1
  else t * t * (3 - 2 * t)

/-- NewInterpolatedCameraPath from the source: smoothing defaults to
Smoothstep. -/
def NewInterpolatedCameraPath (keyframes : List CameraKeyframe) : InterpolatedCameraPath :=
  { Keyframes := keyframes, SmoothFunction := some Smoothstep }

/-- The bracket search loop of interpolateVector/interpolateFloat: the first
adjacent pair with kf[i].Time <= t <= kf[i+1].Time. -/
def findBracketAux : List CameraKeyframe → ℚ → Option (CameraKeyframe × CameraKeyframe)
  | a :: b :: rest, t =>
    if a.Time ≤ t ∧ t ≤ b.Time then some (a, b) else findBracketAux (b :: rest) t
  | _, _ => none

/-- interpolateVector from the source, for an arbitrary getter: zero vector
for no keyframes; the single keyframe's value for one; otherwise the bracket
search (kf1, kf2 staying zero-valued if no bracket matches), the boundary
clamps, then the smoothed linear interpolation. -/
def interpolateVector (cp : InterpolatedCameraPath) (t : ℚ)
    (getter : CameraKeyframe → Vector3) : Vector3 :=
  if cp.Keyframes.length = 0 then ⟨0, 0, 0⟩
  else if cp.Keyframes.length = 1 then getter cp.Keyframes.headI
  else
    let pair := (findBracketAux cp.Keyframes t).getD (zeroKeyframe, zeroKeyframe)
    if t < cp.Keyframes.headI.Time then getter cp.Keyframes.headI
    else if t > cp.Keyframes.getLastI.Time then getter cp.Keyframes.getLastI
    else
      let kf1 := pair.1
      let kf2 := pair.2
      let localT0 := (t - kf1.Time) / (kf2.Time - kf1.Time)
      let localT := match cp.SmoothFunction with
        | some f => f localT0
        | none => localT0
      ((getter kf1).Scale (1 - localT)).Add ((getter kf2).Scale localT)

/-- interpolateFloat from the source, for an arbitrary getter. -/
def interpolateFloat (cp : InterpolatedCameraPath) (t : ℚ)
    (getter : CameraKeyframe → ℚ) : ℚ :=
  if cp.Keyframes.length = 0 then 0
  else if cp.Keyframes.length = 1 then getter cp.Keyframes.headI
  else
    let pair := (findBracketAux cp.Keyframes t).getD (zeroKeyframe, zeroKeyframe)
    if t < cp.Keyframes.headI.Time then getter cp.Keyframes.headI
    else if t > cp.Keyframes.getLastI.Time then getter cp.Keyframes.getLastI
    else
      let kf1 := pair.1
      let kf2 := pair.2
      let localT0 := (t - kf1.Time) / (kf2.Time - kf1.Time)
      let localT := match cp.SmoothFunction with
        | some f => f localT0
        | none => localT0
      getter kf1 * (1 - localT) + getter kf2 * localT

/-- InterpolatedCameraPath.GetPosition from the source. -/
def GetPosition (cp : InterpolatedCameraPath) (t : ℚ) : Vector3 :=
  interpolateVector cp t (fun kf => kf.Position)

/-- InterpolatedCameraPath.GetTarget from the source. -/
def GetTarget (cp : InterpolatedCameraPath) (t : ℚ) : Vector3 :=
  interpolateVector cp t (fun kf => kf.Target)

/-- InterpolatedCameraPath.GetFOV from the source. -/
def GetFOV (cp : InterpolatedCameraPath) (t : ℚ) : ℚ :=
  interpolateFloat cp t (fun kf => kf.FOV)

/-! Concrete instantiation values used by counterexamples and witnesses. -/

/-- A concrete square-root table, correct on the squares the concrete scenes
below hit (0, 1, 4 and 25). -/
def sqrt0 : ℚ → ℚ := fun x => if x = 1 then 1 else if x = 4 then 2 else if x = 25 then 5 else 0

/-- A concrete tangent; the scenes below never reach a tangent-dependent
entry (their Perspective call degenerates to the identity). -/
def tan0 : ℚ → ℚ := fun _ => 0

/-- The concrete transcendental environment. -/
def env0 : RealFns := ⟨sqrt0, tan0⟩

/-- A camera with eye at the origin and FOV 0, so LookAt degenerates to the
axis-flip view x' = -x, z' = -z and Perspective degenerates to the identity:
the projected z of a point is exactly -Z. -/
def cam0 : Camera :=
  { Position := ⟨0, 0, 0⟩, Target := ⟨0, 0, 0⟩, Up := ⟨0, 1, 0⟩, FOV := 0,
    Near := 1 / 10, Far := 100 }

/-- A concrete 100 x 100 renderer around cam0 with no lights. -/
def r0 : Renderer := { Width := 100, Height := 100, Camera := cam0, Lights := [] }

/-- A triangle at world Z = -2: its projected z under r0 is 2, outside the
[-1, 1] range. -/
def triFar : Triangle := ⟨⟨0, 0, -2⟩, ⟨0, 0, -2⟩, ⟨0, 0, -2⟩⟩

/-- A triangle at the origin: its projected z under r0 is 0, inside range. -/
def triNear : Triangle := ⟨⟨0, 0, 0⟩, ⟨0, 0, 0⟩, ⟨0, 0, 0⟩⟩

/-- A mesh holding only the out-of-range triangle. -/
def mesh0 : Mesh := ⟨[], [triFar]⟩

/-- A mesh holding both triangles, nearest first. -/
def mesh1 : Mesh := ⟨[], [triNear, triFar]⟩

/-- A concrete flat colour. -/
def white : Color3 := ⟨1, 1, 1⟩

/-- A second concrete colour for the gradient mode. -/
def gray : Color3 := ⟨1 / 2, 1 / 2, 1 / 2⟩

/-! The claims. -/

/-- C9: TransformVector computes the homogeneous w component and
perspective-divides x, y, z by w exactly when w is farther than epsilon from
both 0 and 1; when w is within epsilon of 0 or of 1 the division is skipped
and the undivided x, y, z are returned, so no division by a near-zero w ever
occurs. -/
theorem C9_transformVector_homogeneous (m : Matrix4) (v : Vector3) :
    (eps < |m.homW v| ∧ eps < |m.homW v - 1| →
      m.TransformVector v =
        ⟨m.homX v / m.homW v, m.homY v / m.homW v, m.homZ v / m.homW v⟩) ∧
    (|m.homW v| ≤ eps ∨ |m.homW v - 1| ≤ eps →
      m.TransformVector v = ⟨m.homX v, m.homY v, m.homZ v⟩) := by
  constructor
  · intro h
    rw [Matrix4.TransformVector, if_pos h]
  · intro h
    rw [Matrix4.TransformVector, if_neg]
    rintro ⟨h1, h2⟩
    rcases h with h | h
    · exact absurd h (not_le.mpr h1)
    · exact absurd h (not_le.mpr h2)

/-- Witness for C9: a projective matrix with w = 2 does divide, and the
identity matrix with w = 1 skips the division. -/
theorem C9_witness :
    (Matrix4.mk 1 0 0 0 0 1 0 0 0 0 1 0 0 0 (-1) 0).TransformVector ⟨0, 0, -2⟩ = ⟨0, 0, -1⟩ ∧
    Identity.TransformVector ⟨3, 4, 5⟩ = ⟨3, 4, 5⟩ := by
  constructor
  · rw [(C9_transformVector_homogeneous _ _).1 (by norm_num [Matrix4.homW, eps])]
    norm_num [Matrix4.homX, Matrix4.homY, Matrix4.homZ, Matrix4.homW]
  · rw [(C9_transformVector_homogeneous _ _).2
      (by right; norm_num [Matrix4.homW, Identity, eps])]
    norm_num [Matrix4.homX, Matrix4.homY, Matrix4.homZ, Identity]

/-- C8: Perspective returns the identity matrix whenever |fov|, |aspect| or
|far - near| is below epsilon, and otherwise returns the standard perspective
matrix, whose (2,2) and (2,3) entries satisfy the standard relations
m10 * (near - far) = far + near and m11 * (near - far) = 2 * far * near. -/
theorem C8_perspective_failsoft (tan : ℚ → ℚ) (fov aspect near far : ℚ) :
    ((|fov| < eps ∨ |aspect| < eps ∨ |far - near| < eps) →
      Perspective tan fov aspect near far = Identity) ∧
    (¬ (|fov| < eps ∨ |aspect| < eps ∨ |far - near| < eps) →
      Perspective tan fov aspect near far =
        ⟨(1 / tan (fov / 2)) / aspect, 0, 0, 0,
         0, 1 / tan (fov / 2), 0, 0,
         0, 0, (far + near) / (near - far), 2 * far * near / (near - far),
         0, 0, -1, 0⟩ ∧
      (Perspective tan fov aspect near far).m10 * (near - far) = far + near ∧
      (Perspective tan fov aspect near far).m11 * (near - far) = 2 * far * near) := by
  constructor
  · intro h
    rw [Perspective, if_pos h]
  · intro h
    have hne : near - far ≠ 0 := by
      intro h0
      apply h
      right; right
      rw [show far - near = -(near - far) by ring, h0]
      norm_num [eps]
    rw [Perspective, if_neg h]
    refine ⟨rfl, ?_, ?_⟩
    · show (far + near) / (near - far) * (near - far) = far + near
      field_simp
    · show 2 * far * near / (near - far) * (near - far) = 2 * far * near
      field_simp

/-- Witness for C8: fov = 0 degenerates to the identity; fov = 1, aspect = 1,
near = 1, far = 3 is non-degenerate and satisfies the entry relations. -/
theorem C8_witness :
    Perspective tan0 0 1 (1 / 10) 100 = Identity ∧
    (Perspective tan0 1 1 1 3).m10 * (1 - 3) = 3 + 1 ∧
    (Perspective tan0 1 1 1 3).m11 * (1 - 3) = 2 * 3 * 1 :=
  ⟨(C8_perspective_failsoft tan0 0 1 (1 / 10) 100).1 (by left; norm_num [eps]),
   by rw [((C8_perspective_failsoft tan0 1 1 1 3).2 (by norm_num [eps])).2.1],
   by rw [((C8_perspective_failsoft tan0 1 1 1 3).2 (by norm_num [eps])).2.2]⟩

/-- C10: after GenerateFramesOnly returns, on the success path and on the
error path alike, Config.TempDir is restored to its prior value but
Config.CleanupTemp is left false, so a later Generate on the same generator
skips the temp-directory cleanup; the generation result is passed through. -/
theorem C10_generateFramesOnly_config (c : AnimationConfig) (outputDir : String)
    (genResult : Except String Unit) :
    (GenerateFramesOnly c outputDir genResult).1 = { c with CleanupTemp := false } ∧
    (GenerateFramesOnly c outputDir genResult).1.TempDir = c.TempDir ∧
    (GenerateFramesOnly c outputDir genResult).1.CleanupTemp = false ∧
    generateRunsCleanup (GenerateFramesOnly c outputDir genResult).1 = false ∧
    (GenerateFramesOnly c outputDir genResult).2 = genResult := by
  rcases genResult with e | u
  · exact ⟨rfl, rfl, rfl, rfl, rfl⟩
  · cases u
    exact ⟨rfl, rfl, rfl, rfl, rfl⟩

/-- Counterexample to C2: GenerateFrames computes int(fps * duration), a
truncation toward zero, not round(fps * duration): at FPS = 3 and
Duration = 0.5 (both exactly representable in float64, with an exact product
1.5) the code produces 1 frame where round gives 2. -/
theorem C2_counterexample :
    totalFrames 3 (1 / 2) = 1 ∧ round ((3 : ℚ) * (1 / 2)) = 2 ∧
    totalFrames 3 (1 / 2) ≠ round ((3 : ℚ) * (1 / 2)) := by
  have h1 : totalFrames 3 (1 / 2) = 1 := by
    rw [totalFrames, truncInt, if_pos (by norm_num)]
    norm_num [Int.floor_eq_iff]
  have h2 : round ((3 : ℚ) * (1 / 2)) = 2 := by
    rw [round_eq]
    norm_num [Int.floor_eq_iff]
  exact ⟨h1, h2, by rw [h1, h2]; norm_num⟩

/-- C2 as amended: the total frame count N is the truncation toward zero of
fps * duration (not its rounding); the frames produced are indexed 1..N, with
frame 0 never among them; and the normalized time of frame i is (i-1)/N.  The
file names of a single-thread run are exactly the frame names of 1..N. -/
theorem C2_corrected_frames (fps : ℤ) (duration : ℚ)
    (h : 0 ≤ (fps : ℚ) * duration) :
    totalFrames fps duration = ⌊(fps : ℚ) * duration⌋ ∧
    (∀ f : ℕ, f ∈ frameIndices (totalFrames fps duration).toNat ↔
        1 ≤ f ∧ (f : ℤ) ≤ totalFrames fps duration) ∧
    0 ∉ frameIndices (totalFrames fps duration).toNat ∧
    (∀ f : ℕ, frameTime (totalFrames fps duration).toNat f =
        ((f : ℚ) - 1) / ((totalFrames fps duration).toNat : ℚ)) ∧
    (∀ (α : Type) (render : ℕ → ℚ → α),
        (generateFramesSingleThread render (totalFrames fps duration).toNat).map Prod.fst =
          (frameIndices (totalFrames fps duration).toNat).map frameName) := by
  have h1 : totalFrames fps duration = ⌊(fps : ℚ) * duration⌋ := by
    rw [totalFrames, truncInt, if_pos h]
  have h2 : 0 ≤ totalFrames fps duration := h1 ▸ Int.floor_nonneg.mpr h
  have h3 : ((totalFrames fps duration).toNat : ℤ) = totalFrames fps duration :=
    Int.toNat_of_nonneg h2
  refine ⟨h1, ?_, ?_, fun f => rfl, ?_⟩
  · intro f
    simp only [frameIndices, List.mem_map, List.mem_range]
    constructor
    · rintro ⟨k, hk, rfl⟩
      omega
    · rintro ⟨hf1, hf2⟩
      exact ⟨f - 1, by omega, by omega⟩
  · simp only [frameIndices, List.mem_map, List.mem_range]
    rintro ⟨k, hk, hk1⟩
    omega
  · intro α render
    simp [generateFramesSingleThread, frameOutput, List.map_map, Function.comp]

/-- Witness for C2 as amended: FPS = 10, Duration = 1. -/
theorem C2_witness :
    totalFrames 10 1 = ⌊((10 : ℤ) : ℚ) * 1⌋ ∧
    0 ∉ frameIndices (totalFrames 10 1).toNat :=
  ⟨(C2_corrected_frames 10 1 (by norm_num)).1,
   (C2_corrected_frames 10 1 (by norm_num)).2.2.1⟩

/-- C6: Normalize returns the zero vector on every vector of length below
epsilon (no division by a near-zero length), and on every vector of length at
least epsilon the normalized vector has length exactly 1 — stated for any
square-root function that is exact on the two values it is asked for. -/
theorem C6_normalize_safe (sqrt : ℚ → ℚ) (v : Vector3)
    (hsq : sqrt (v.Dot v) * sqrt (v.Dot v) = v.Dot v) (h1 : sqrt 1 = 1) :
    (v.Length sqrt < eps → v.Normalize sqrt = ⟨0, 0, 0⟩) ∧
    (eps ≤ v.Length sqrt → (v.Normalize sqrt).Length sqrt = 1) := by
  have hLL : v.Length sqrt * v.Length sqrt = v.X * v.X + v.Y * v.Y + v.Z * v.Z := by
    simpa [Vector3.Length, Vector3.Dot] using hsq
  constructor
  · intro h
    simp only [Vector3.Normalize]
    rw [if_pos h]
  · intro h
    have hL0 : sqrt (v.X * v.X + v.Y * v.Y + v.Z * v.Z) ≠ 0 := by
      intro h0
      rw [show v.Length sqrt = sqrt (v.X * v.X + v.Y * v.Y + v.Z * v.Z) from rfl, h0] at h
      norm_num [eps] at h
    have hLL2 : sqrt (v.X * v.X + v.Y * v.Y + v.Z * v.Z) *
        sqrt (v.X * v.X + v.Y * v.Y + v.Z * v.Z) = v.X * v.X + v.Y * v.Y + v.Z * v.Z := by
      simpa [Vector3.Dot] using hsq
    simp only [Vector3.Normalize]
    rw [if_neg (not_lt.mpr h)]
    simp only [Vector3.Scale, Vector3.Length]
    convert h1 using 2
    generalize hg : sqrt (v.X * v.X + v.Y * v.Y + v.Z * v.Z) = L at hL0 hLL2 ⊢ 
    field_simp
    linear_combination -hLL2

/-- Witness for C6: the vector (3,4,0) of length 5 normalizes to length 1,
and the zero vector normalizes to the zero vector. -/
theorem C6_witness :
    ((⟨3, 4, 0⟩ : Vector3).Normalize sqrt0).Length sqrt0 = 1 ∧
    (⟨0, 0, 0⟩ : Vector3).Normalize sqrt0 = ⟨0, 0, 0⟩ :=
  ⟨(C6_normalize_safe sqrt0 ⟨3, 4, 0⟩ (by norm_num [Vector3.Dot, sqrt0])
      (by norm_num [sqrt0])).2 (by norm_num [Vector3.Length, sqrt0, eps]),
   (C6_normalize_safe sqrt0 ⟨0, 0, 0⟩ (by norm_num [Vector3.Dot, sqrt0])
      (by norm_num [sqrt0])).1 (by norm_num [Vector3.Length, sqrt0, eps])⟩

/-- C7: Normal returns the default up vector {0,1,0} exactly when the cross
product of the two edges has length below epsilon — in particular for every
triangle whose vertices are colinear — and otherwise returns the normalized
cross product; it is a total function, never failing. -/
theorem C7_triangle_normal_total (sqrt : ℚ → ℚ) (t : Triangle) :
    (((t.V1.Sub t.V0).Cross (t.V2.Sub t.V0)).Length sqrt < eps →
      t.Normal sqrt = ⟨0, 1, 0⟩) ∧
    (¬ ((t.V1.Sub t.V0).Cross (t.V2.Sub t.V0)).Length sqrt < eps →
      t.Normal sqrt = ((t.V1.Sub t.V0).Cross (t.V2.Sub t.V0)).Normalize sqrt) ∧
    (∀ (d : Vector3) (a b : ℚ), t.V1 = t.V0.Add (d.Scale a) →
      t.V2 = t.V0.Add (d.Scale b) → sqrt 0 = 0 → t.Normal sqrt = ⟨0, 1, 0⟩) := by
  have hA : ((t.V1.Sub t.V0).Cross (t.V2.Sub t.V0)).Length sqrt < eps →
      t.Normal sqrt = ⟨0, 1, 0⟩ := by
    intro h
    simp only [Triangle.Normal]
    rw [if_pos h]
  refine ⟨hA, ?_, ?_⟩
  · intro h
    simp only [Triangle.Normal]
    rw [if_neg h]
  · intro d a b h1 h2 h0
    apply hA
    have hcross : (t.V1.Sub t.V0).Cross (t.V2.Sub t.V0) = ⟨0, 0, 0⟩ := by
      rw [h1, h2]
      simp only [Vector3.Add, Vector3.Scale, Vector3.Sub, Vector3.Cross, Vector3.mk.injEq]
      refine ⟨by ring, by ring, by ring⟩
    rw [hcross]
    norm_num [Vector3.Length, h0, eps]

/-- Witness for C7: a colinear triangle gets the default normal {0,1,0}; a
right triangle in the XY plane gets the normalized cross product {0,0,1}. -/
theorem C7_witness :
    (Triangle.mk ⟨0, 0, 0⟩ ⟨1, 0, 0⟩ ⟨2, 0, 0⟩).Normal sqrt0 = ⟨0, 1, 0⟩ ∧
    (Triangle.mk ⟨0, 0, 0⟩ ⟨1, 0, 0⟩ ⟨0, 1, 0⟩).Normal sqrt0 = ⟨0, 0, 1⟩ := by
  constructor
  · exact (C7_triangle_normal_total sqrt0 _).2.2 ⟨1, 0, 0⟩ 1 2
      (by norm_num [Vector3.Add, Vector3.Scale])
      (by norm_num [Vector3.Add, Vector3.Scale])
      (by norm_num [sqrt0])
  · rw [(C7_triangle_normal_total sqrt0 _).2.1
      (by norm_num [Vector3.Sub, Vector3.Cross, Vector3.Length, sqrt0, eps])]
    norm_num [Vector3.Sub, Vector3.Cross, Vector3.Normalize, Vector3.Length,
      Vector3.Scale, sqrt0, eps]

/-- Helper: membership in the triangle projection of a filterMap whose
payload keeps the scanned triangle. -/
lemma mem_map_tri_filterMap (f : Triangle → Option TriangleWithDepth)
    (hf : ∀ a td, f a = some td → td.tri = a) (l : List Triangle) (tri : Triangle) :
    tri ∈ (l.filterMap f).map TriangleWithDepth.tri ↔ tri ∈ l ∧ (f tri).isSome := by
  simp only [List.mem_map, List.mem_filterMap]
  constructor
  · rintro ⟨td, ⟨a, ha, hfa⟩, rfl⟩
    have h := hf a td hfa
    subst h
    exact ⟨ha, by rw [hfa]; rfl⟩
  · rintro ⟨ha, hs⟩
    rcases Option.isSome_iff_exists.mp hs with ⟨td, htd⟩
    exact ⟨td, ⟨tri, ha, htd⟩, hf tri td htd⟩

/-- Counterexample to C1: under the concrete scene env0/r0, the triangle
triFar projects to z = 2, outside [-1, 1], yet Flat, Shaded and Gradient
drawing all keep it (no upper-bound cull), while Wireframe culls it. -/
theorem C1_counterexample :
    (projTriZ env0 r0 triFar).1 > 1 ∧
    (flatVisible env0 r0 mesh0 white).map TriangleWithDepth.tri = [triFar] ∧
    (shadedVisible env0 r0 mesh0 white).map TriangleWithDepth.tri = [triFar] ∧
    (gradientVisible env0 r0 mesh0 white gray).map TriangleWithDepth.tri = [triFar] ∧
    drawWireframe env0 r0 mesh0 white = [] := by
  refine ⟨?_, ?_, ?_, ?_, ?_⟩ <;>
    norm_num [projTriZ, ProjectToScreen, LookAt, Perspective, Matrix4.TransformVector,
      Matrix4.homX, Matrix4.homY, Matrix4.homZ, Matrix4.homW, Identity,
      Vector3.Normalize, Vector3.Length, Vector3.Sub, Vector3.Scale, Vector3.Cross,
      Vector3.Dot, Vector3.Add, sqrt0, tan0, env0, cam0, r0, triFar, eps, white, gray,
      mesh0, flatVisible, shadedVisible, gradientVisible, drawWireframe,
      List.filterMap, Triangle.Normal, Triangle.Center, CalculateLighting]

/-- C1 as amended: in Flat, Shaded and Gradient drawing the z-range test
skips a triangle iff one of its three projected z values is below -1; the
upper bound z > 1 is not checked (only Wireframe checks both bounds), so a
triangle with all three projected z at least -1 always passes the range test;
Shaded additionally discards backfacing triangles. -/
theorem C1_corrected_cull (env : RealFns) (r : Renderer) (mesh : Mesh) (c1 c2 : Color3) :
    (∀ tri : Triangle,
      tri ∈ (flatVisible env r mesh c1).map TriangleWithDepth.tri ↔
        tri ∈ mesh.Triangles ∧
          ¬ ((projTriZ env r tri).1 < -1 ∨ (projTriZ env r tri).2.1 < -1 ∨
             (projTriZ env r tri).2.2 < -1)) ∧
    (∀ tri : Triangle,
      tri ∈ (gradientVisible env r mesh c1 c2).map TriangleWithDepth.tri ↔
        tri ∈ mesh.Triangles ∧
          ¬ ((projTriZ env r tri).1 < -1 ∨ (projTriZ env r tri).2.1 < -1 ∨
             (projTriZ env r tri).2.2 < -1)) ∧
    (∀ tri : Triangle,
      tri ∈ (shadedVisible env r mesh c1).map TriangleWithDepth.tri ↔
        tri ∈ mesh.Triangles ∧
          (¬ ((projTriZ env r tri).1 < -1 ∨ (projTriZ env r tri).2.1 < -1 ∨
              (projTriZ env r tri).2.2 < -1) ∧
           ¬ (tri.Normal env.sqrt).Dot
               ((r.Camera.Position.Sub tri.Center).Normalize env.sqrt) < 0)) := by
  refine ⟨?_, ?_, ?_⟩
  · intro tri
    rw [flatVisible, mem_map_tri_filterMap]
    · apply and_congr_right
      intro _
      by_cases hc : (projTriZ env r tri).1 < -1 ∨ (projTriZ env r tri).2.1 < -1 ∨
          (projTriZ env r tri).2.2 < -1
      · simp [hc]
      · simp [hc]
    · intro a td hfa
      by_cases hc : (projTriZ env r a).1 < -1 ∨ (projTriZ env r a).2.1 < -1 ∨
          (projTriZ env r a).2.2 < -1
      · rw [if_pos hc] at hfa
        cases hfa
      · rw [if_neg hc] at hfa
        cases hfa
        rfl
  · intro tri
    rw [gradientVisible, mem_map_tri_filterMap]
    · apply and_congr_right
      intro _
      by_cases hc : (projTriZ env r tri).1 < -1 ∨ (projTriZ env r tri).2.1 < -1 ∨
          (projTriZ env r tri).2.2 < -1
      · simp [hc]
      · simp [hc]
    · intro a td hfa
      by_cases hc : (projTriZ env r a).1 < -1 ∨ (projTriZ env r a).2.1 < -1 ∨
          (projTriZ env r a).2.2 < -1
      · rw [if_pos hc] at hfa
        cases hfa
      · rw [if_neg hc] at hfa
        cases hfa
        rfl
  · intro tri
    rw [shadedVisible, mem_map_tri_filterMap]
    · apply and_congr_right
      intro _
      by_cases hc : (projTriZ env r tri).1 < -1 ∨ (projTriZ env r tri).2.1 < -1 ∨
          (projTriZ env r tri).2.2 < -1
      · simp [hc]
      · by_cases hb : (tri.Normal env.sqrt).Dot
            ((r.Camera.Position.Sub tri.Center).Normalize env.sqrt) < 0
        · simp [hc, hb]
        · simp [hc, hb]
    · intro a td hfa
      by_cases hc : (projTriZ env r a).1 < -1 ∨ (projTriZ env r a).2.1 < -1 ∨
          (projTriZ env r a).2.2 < -1
      · rw [if_pos hc] at hfa
        cases hfa
      · rw [if_neg hc] at hfa
        by_cases hb : (a.Normal env.sqrt).Dot
            ((r.Camera.Position.Sub a.Center).Normalize env.sqrt) < 0
        · rw [if_pos hb] at hfa
          cases hfa
        · rw [if_neg hb] at hfa
          cases hfa
          rfl

/-- Helper: the painter's sort places a strictly deeper element strictly
earlier. -/
lemma sortByDepthDesc_getD_lt (l : List TriangleWithDepth) (i j : ℕ)
    (hi : i < (sortByDepthDesc l).length) (hj : j < (sortByDepthDesc l).length)
    (hlt : ((sortByDepthDesc l).getD j default).depth <
      ((sortByDepthDesc l).getD i default).depth) : i < j := by
  by_contra hij
  push_neg at hij
  have hs : List.Sorted depthGE (sortByDepthDesc l) :=
    List.sorted_insertionSort depthGE l
  rcases Nat.lt_or_ge j i with hji | hji
  · have h := hs.rel_get_of_lt (a := ⟨j, hj⟩) (b := ⟨i, hi⟩) hji
    rw [List.getD_eq_get _ _ hi, List.getD_eq_get _ _ hj] at hlt
    exact absurd h (not_le.mpr hlt)
  · have h : i = j := le_antisymm hji hij
    subst h
    exact lt_irrefl _ hlt

/-- C4: in Flat and Shaded modes the fill draw calls are issued in the order
of the depth-sorted survivor list, and in that list a triangle of strictly
greater average depth always precedes one of strictly smaller depth
(farthest-first painter's algorithm). -/
theorem C4_painter_order (env : RealFns) (r : Renderer) (mesh : Mesh) (color : Color3) :
    (drawFlat env r mesh color = if mesh.Triangles = [] then []
        else (flatFillOrder env r mesh color).map (fillEvent env r)) ∧
    (drawShaded env r mesh color = if mesh.Triangles = [] then []
        else (shadedFillOrder env r mesh color).map (fillEvent env r)) ∧
    (∀ i j : ℕ, i < (flatFillOrder env r mesh color).length →
        j < (flatFillOrder env r mesh color).length →
        ((flatFillOrder env r mesh color).getD j default).depth <
          ((flatFillOrder env r mesh color).getD i default).depth → i < j) ∧
    (∀ i j : ℕ, i < (shadedFillOrder env r mesh color).length →
        j < (shadedFillOrder env r mesh color).length →
        ((shadedFillOrder env r mesh color).getD j default).depth <
          ((shadedFillOrder env r mesh color).getD i default).depth → i < j) :=
  ⟨rfl, rfl,
   fun i j hi hj hlt => sortByDepthDesc_getD_lt _ i j hi hj hlt,
   fun i j hi hj hlt => sortByDepthDesc_getD_lt _ i j hi hj hlt⟩

/-- Witness for C4: in the two-triangle scene mesh1 the fill order has the
depth-2 triangle at position 0 and the depth-0 triangle at position 1, and
the theorem instantiates to 0 < 1. -/
theorem C4_witness :
    (0 : ℕ) < (flatFillOrder env0 r0 mesh1 white).length ∧
    (1 : ℕ) < (flatFillOrder env0 r0 mesh1 white).length ∧
    ((flatFillOrder env0 r0 mesh1 white).getD 1 default).depth <
      ((flatFillOrder env0 r0 mesh1 white).getD 0 default).depth ∧
    (0 : ℕ) < 1 := by
  have h1 : (0 : ℕ) < (flatFillOrder env0 r0 mesh1 white).length := by
    norm_num [flatFillOrder, flatVisible, sortByDepthDesc, mesh1, projTriZ,
      ProjectToScreen, LookAt, Perspective, Matrix4.TransformVector,
      Matrix4.homX, Matrix4.homY, Matrix4.homZ, Matrix4.homW, Identity,
      Vector3.Normalize, Vector3.Length, Vector3.Sub, Vector3.Scale, Vector3.Cross,
      Vector3.Dot, sqrt0, tan0, env0, cam0, r0, triFar, triNear, eps, white,
      List.filterMap, List.insertionSort, List.orderedInsert, depthGE]
  have h2 : (1 : ℕ) < (flatFillOrder env0 r0 mesh1 white).length := by
    norm_num [flatFillOrder, flatVisible, sortByDepthDesc, mesh1, projTriZ,
      ProjectToScreen, LookAt, Perspective, Matrix4.TransformVector,
      Matrix4.homX, Matrix4.homY, Matrix4.homZ, Matrix4.homW, Identity,
      Vector3.Normalize, Vector3.Length, Vector3.Sub, Vector3.Scale, Vector3.Cross,
      Vector3.Dot, sqrt0, tan0, env0, cam0, r0, triFar, triNear, eps, white,
      List.filterMap, List.insertionSort, List.orderedInsert, depthGE]
  have h3 : ((flatFillOrder env0 r0 mesh1 white).getD 1 default).depth <
      ((flatFillOrder env0 r0 mesh1 white).getD 0 default).depth := by
    norm_num [flatFillOrder, flatVisible, sortByDepthDesc, mesh1, projTriZ,
      ProjectToScreen, LookAt, Perspective, Matrix4.TransformVector,
      Matrix4.homX, Matrix4.homY, Matrix4.homZ, Matrix4.homW, Identity,
      Vector3.Normalize, Vector3.Length, Vector3.Sub, Vector3.Scale, Vector3.Cross,
      Vector3.Dot, sqrt0, tan0, env0, cam0, r0, triFar, triNear, eps, white,
      List.filterMap, List.insertionSort, List.orderedInsert, depthGE, List.getD]
  exact ⟨h1, h2, h3, (C4_painter_order env0 r0 mesh1 white).2.2.1 0 1 h1 h2 h3⟩

/-- Helper: splitting a list over the fibers of an assignment into W buckets
and recombining loses nothing — the heart of the worker-pool determinism. -/
lemma sum_filter_assign_eq {α : Type} {W : ℕ} (assign : ℕ → Fin W) (g : ℕ → α) :
    ∀ l : List ℕ,
      (∑ w : Fin W, (((l.filter (fun f => assign f = w)).map g : List α) : Multiset α)) =
        ((l.map g : List α) : Multiset α) := by
  intro l
  induction l with
  | nil => simp
  | cons a t ih =>
    have hsplit : ∀ w : Fin W,
        ((((a :: t).filter (fun f => assign f = w)).map g : List α) : Multiset α) =
          (if assign a = w then ({g a} : Multiset α) else 0) +
            (((t.filter (fun f => assign f = w)).map g : List α) : Multiset α) := by
      intro w
      by_cases h : assign a = w
      · simp [List.filter_cons, h]
      · simp [List.filter_cons, h]
    rw [Finset.sum_congr rfl (fun w _ => hsplit w), Finset.sum_add_distrib, ih]
    rw [Finset.sum_ite_eq Finset.univ (assign a) (fun _ => ({g a} : Multiset α))]
    simp [Multiset.singleton_add]

/-- C3: for every worker count, every resolution of the job-channel
scheduling and every render callback, the multithreaded run produces exactly
the single-thread set of files — same names, same contents, same count —
because each frame's name and content are functions of its index alone. -/
theorem C3_parallel_deterministic {α : Type} (render : ℕ → ℚ → α) (N : ℕ)
    {W : ℕ} (assign : ℕ → Fin W) :
    generateFramesMultiThread render N assign =
      ((generateFramesSingleThread render N : List (String × α)) : Multiset (String × α)) ∧
    Multiset.card (generateFramesMultiThread render N assign) = N ∧
    (generateFramesSingleThread render N).length = N := by
  have h : generateFramesMultiThread render N assign =
      ((generateFramesSingleThread render N : List (String × α)) : Multiset (String × α)) := by
    rw [generateFramesMultiThread, generateFramesSingleThread]
    exact sum_filter_assign_eq assign (frameOutput render N) (frameIndices N)
  refine ⟨h, ?_, ?_⟩
  · rw [h]
    simp [generateFramesSingleThread, frameIndices]
  · simp [generateFramesSingleThread, frameIndices]

/-- Helper: getLastI of a nonempty list is its element at index length - 1. -/
lemma getLastI_eq_get : ∀ (l : List CameraKeyframe) (hl : l.length - 1 < l.length),
    l.getLastI = l.get ⟨l.length - 1, hl⟩
  | [], hl => by simp at hl
  | [a], _ => rfl
  | [a, b], _ => rfl
  | a :: b :: c :: t, hl => by
    have ih := getLastI_eq_get (c :: t) (by simp)
    simp only [List.getLastI] at ih ⊢
    rw [ih]
    simp [List.get]

/-- Helper: the first bracket the search finds for the exact time of keyframe
i + 1 in a strictly time-increasing list is (keyframe i, keyframe i + 1). -/
lemma findBracketAux_at : ∀ (kfs : List CameraKeyframe),
    kfs.Pairwise (fun a b => a.Time < b.Time) →
    ∀ (i : ℕ) (hi : i + 1 < kfs.length),
      findBracketAux kfs ((kfs.get ⟨i + 1, hi⟩).Time) =
        some (kfs.get ⟨i, by omega⟩, kfs.get ⟨i + 1, hi⟩)
  | [], _, i, hi => by simp at hi
  | [a], _, i, hi => by simp at hi
  | a :: b :: rest, hp, 0, hi => by
    have hab : a.Time < b.Time :=
      (List.pairwise_cons.mp hp).1 b (by simp)
    show findBracketAux (a :: b :: rest) b.Time = some (a, b)
    rw [findBracketAux, if_pos ⟨le_of_lt hab, le_refl _⟩]
  | a :: b :: rest, hp, i + 1, hi => by
    have hpt : (b :: rest).Pairwise (fun a b => a.Time < b.Time) := hp.of_cons
    have hi2 : i + 1 < (b :: rest).length := by
      simpa using hi
    have hbT : b.Time < ((b :: rest).get ⟨i + 1, hi2⟩).Time := by
      have := List.pairwise_iff_get.mp hpt ⟨0, by simp⟩ ⟨i + 1, hi2⟩ (by simp [Fin.lt_def])
      simpa using this
    have ih := findBracketAux_at (b :: rest) hpt i hi2
    show findBracketAux (a :: b :: rest) ((b :: rest).get ⟨i + 1, hi2⟩).Time = _
    rw [findBracketAux, if_neg (by rintro ⟨h1, h2⟩; exact absurd h2 (not_le.mpr hbT)), ih]
    rfl

/-- Helper: with at least two keyframes, no boundary clamp firing, and a
bracket found, interpolateVector is the smoothed linear blend of the bracket
values. -/
lemma interpolateVector_eval (kfs : List CameraKeyframe) (t : ℚ)
    (getter : CameraKeyframe → Vector3) (h2 : 2 ≤ kfs.length)
    (hhead : ¬ t < kfs.headI.Time) (hlast : ¬ t > kfs.getLastI.Time)
    (kf1 kf2 : CameraKeyframe) (hbr : findBracketAux kfs t = some (kf1, kf2)) :
    interpolateVector ⟨kfs, some Smoothstep⟩ t getter =
      ((getter kf1).Scale (1 - Smoothstep ((t - kf1.Time) / (kf2.Time - kf1.Time)))).Add
        ((getter kf2).Scale (Smoothstep ((t - kf1.Time) / (kf2.Time - kf1.Time)))) := by
  rw [interpolateVector]
  simp only [hbr, Option.getD_some]
  rw [if_neg (by omega), if_neg (by omega), if_neg hhead, if_neg hlast]

/-- Helper: the float analogue of interpolateVector_eval. -/
lemma interpolateFloat_eval (kfs : List CameraKeyframe) (t : ℚ)
    (getter : CameraKeyframe → ℚ) (h2 : 2 ≤ kfs.length)
    (hhead : ¬ t < kfs.headI.Time) (hlast : ¬ t > kfs.getLastI.Time)
    (kf1 kf2 : CameraKeyframe) (hbr : findBracketAux kfs t = some (kf1, kf2)) :
    interpolateFloat ⟨kfs, some Smoothstep⟩ t getter =
      getter kf1 * (1 - Smoothstep ((t - kf1.Time) / (kf2.Time - kf1.Time))) +
        getter kf2 * Smoothstep ((t - kf1.Time) / (kf2.Time - kf1.Time)) := by
  rw [interpolateFloat]
  simp only [hbr, Option.getD_some]
  rw [if_neg (by omega), if_neg (by omega), if_neg hhead, if_neg hlast]

/-- Helper: interpolateVector at the exact time of keyframe i returns that
keyframe's value, for strictly increasing keyframe times and the default
Smoothstep smoothing. -/
lemma interpolateVector_at_get (kfs : List CameraKeyframe)
    (hp : kfs.Pairwise (fun a b => a.Time < b.Time))
    (getter : CameraKeyframe → Vector3) (i : ℕ) (hi : i < kfs.length) :
    interpolateVector ⟨kfs, some Smoothstep⟩ ((kfs.get ⟨i, hi⟩).Time) getter =
      getter (kfs.get ⟨i, hi⟩) := by
  rcases lt_or_ge kfs.length 2 with h2 | h2
  · rcases kfs with _ | ⟨a, t⟩
    · simp at hi
    · have ht : t = [] := by
        rcases t with _ | ⟨b, t⟩
        · rfl
        · simp at h2
          omega
      subst ht
      have h0 : i = 0 := by
        simp at hi
        omega
      subst h0
      rfl
  · have hhead : ¬ (kfs.get ⟨i, hi⟩).Time < kfs.headI.Time := by
      rcases kfs with _ | ⟨a, t⟩
      · simp at hi
      · rcases Nat.eq_zero_or_pos i with h0 | hpos
        · subst h0
          simp
        · have h := List.pairwise_iff_get.mp hp ⟨0, by simp⟩ ⟨i, hi⟩
            (by simp [Fin.lt_def, hpos])
          simp only [List.headI]
          exact not_lt.mpr (le_of_lt (by simpa using h))
    have hlastlt : kfs.length - 1 < kfs.length := by omega
    have hlast : ¬ (kfs.get ⟨i, hi⟩).Time > kfs.getLastI.Time := by
      rw [getLastI_eq_get kfs hlastlt]
      rcases Nat.lt_or_ge i (kfs.length - 1) with hlt | hge
      · have h := List.pairwise_iff_get.mp hp ⟨i, hi⟩ ⟨kfs.length - 1, hlastlt⟩
          (by simp [Fin.lt_def, hlt])
        exact not_lt.mpr (le_of_lt h)
      · have hieq : i = kfs.length - 1 := by omega
        subst hieq
        simp
    rcases Nat.eq_zero_or_pos i with h0 | hpos
    · subst h0
      rcases kfs with _ | ⟨a, _ | ⟨b, rest⟩⟩
      · simp at hi
      · simp at h2
      · have hab : a.Time < b.Time := (List.pairwise_cons.mp hp).1 b (by simp)
        have hbr : findBracketAux (a :: b :: rest) a.Time = some (a, b) := by
          rw [findBracketAux, if_pos ⟨le_refl a.Time, le_of_lt hab⟩]
        have heval := interpolateVector_eval (a :: b :: rest) a.Time getter
          (by simp) hhead hlast a b hbr
        show interpolateVector ⟨a :: b :: rest, some Smoothstep⟩ a.Time getter = getter a
        rw [heval, sub_self, zero_div]
        have hs0 : Smoothstep 0 = 0 := by norm_num [Smoothstep]
        rw [hs0]
        simp [Vector3.Scale, Vector3.Add]
    · obtain ⟨j, rfl⟩ : ∃ j, i = j + 1 := ⟨i - 1, by omega⟩
      have hbr := findBracketAux_at kfs hp j hi
      have heval := interpolateVector_eval kfs ((kfs.get ⟨j + 1, hi⟩).Time) getter
        (by omega) hhead hlast _ _ hbr
      rw [heval]
      have hjlt : (kfs.get ⟨j, by omega⟩).Time < (kfs.get ⟨j + 1, hi⟩).Time :=
        List.pairwise_iff_get.mp hp ⟨j, by omega⟩ ⟨j + 1, hi⟩ (by simp [Fin.lt_def])
      rw [div_self (sub_ne_zero.mpr (ne_of_gt hjlt))]
      have hs1 : Smoothstep 1 = 1 := by norm_num [Smoothstep]
      rw [hs1]
      simp [Vector3.Scale, Vector3.Add]

/-- Helper: the float analogue of interpolateVector_at_get. -/
lemma interpolateFloat_at_get (kfs : List CameraKeyframe)
    (hp : kfs.Pairwise (fun a b => a.Time < b.Time))
    (getter : CameraKeyframe → ℚ) (i : ℕ) (hi : i < kfs.length) :
    interpolateFloat ⟨kfs, some Smoothstep⟩ ((kfs.get ⟨i, hi⟩).Time) getter =
      getter (kfs.get ⟨i, hi⟩) := by
  rcases lt_or_ge kfs.length 2 with h2 | h2
  · rcases kfs with _ | ⟨a, t⟩
    · simp at hi
    · have ht : t = [] := by
        rcases t with _ | ⟨b, t⟩
        · rfl
        · simp at h2
          omega
      subst ht
      have h0 : i = 0 := by
        simp at hi
        omega
      subst h0
      rfl
  · have hhead : ¬ (kfs.get ⟨i, hi⟩).Time < kfs.headI.Time := by
      rcases kfs with _ | ⟨a, t⟩
      · simp at hi
      · rcases Nat.eq_zero_or_pos i with h0 | hpos
        · subst h0
          simp
        · have h := List.pairwise_iff_get.mp hp ⟨0, by simp⟩ ⟨i, hi⟩
            (by simp [Fin.lt_def, hpos])
          simp only [List.headI]
          exact not_lt.mpr (le_of_lt (by simpa using h))
    have hlastlt : kfs.length - 1 < kfs.length := by omega
    have hlast : ¬ (kfs.get ⟨i, hi⟩).Time > kfs.getLastI.Time := by
      rw [getLastI_eq_get kfs hlastlt]
      rcases Nat.lt_or_ge i (kfs.length - 1) with hlt | hge
      · have h := List.pairwise_iff_get.mp hp ⟨i, hi⟩ ⟨kfs.length - 1, hlastlt⟩
          (by simp [Fin.lt_def, hlt])
        exact not_lt.mpr (le_of_lt h)
      · have hieq : i = kfs.length - 1 := by omega
        subst hieq
        simp
    rcases Nat.eq_zero_or_pos i with h0 | hpos
    · subst h0
      rcases kfs with _ | ⟨a, _ | ⟨b, rest⟩⟩
      · simp at hi
      · simp at h2
      · have hab : a.Time < b.Time := (List.pairwise_cons.mp hp).1 b (by simp)
        have hbr : findBracketAux (a :: b :: rest) a.Time = some (a, b) := by
          rw [findBracketAux, if_pos ⟨le_refl a.Time, le_of_lt hab⟩]
        have heval := interpolateFloat_eval (a :: b :: rest) a.Time getter
          (by simp) hhead hlast a b hbr
        show interpolateFloat ⟨a :: b :: rest, some Smoothstep⟩ a.Time getter = getter a
        rw [heval, sub_self, zero_div]
        have hs0 : Smoothstep 0 = 0 := by norm_num [Smoothstep]
        rw [hs0]
        ring
    · obtain ⟨j, rfl⟩ : ∃ j, i = j + 1 := ⟨i - 1, by omega⟩
      have hbr := findBracketAux_at kfs hp j hi
      have heval := interpolateFloat_eval kfs ((kfs.get ⟨j + 1, hi⟩).Time) getter
        (by omega) hhead hlast _ _ hbr
      rw [heval]
      have hjlt : (kfs.get ⟨j, by omega⟩).Time < (kfs.get ⟨j + 1, hi⟩).Time :=
        List.pairwise_iff_get.mp hp ⟨j, by omega⟩ ⟨j + 1, hi⟩ (by simp [Fin.lt_def])
      rw [div_self (sub_ne_zero.mpr (ne_of_gt hjlt))]
      have hs1 : Smoothstep 1 = 1 := by norm_num [Smoothstep]
      rw [hs1]
      ring

/-- Helper: outside the keyframe range, interpolateVector clamps to the
boundary keyframe values. -/
lemma interpolateVector_clamp (kfs : List CameraKeyframe)
    (hp : kfs.Pairwise (fun a b => a.Time < b.Time))
    (getter : CameraKeyframe → Vector3) (hne : kfs ≠ []) (t : ℚ) :
    (t < kfs.headI.Time →
      interpolateVector ⟨kfs, some Smoothstep⟩ t getter = getter kfs.headI) ∧
    (t > kfs.getLastI.Time →
      interpolateVector ⟨kfs, some Smoothstep⟩ t getter = getter kfs.getLastI) := by
  rcases lt_or_ge kfs.length 2 with h2 | h2
  · rcases kfs with _ | ⟨a, t'⟩
    · exact absurd rfl hne
    · have ht : t' = [] := by
        rcases t' with _ | ⟨b, t'⟩
        · rfl
        · simp at h2
          omega
      subst ht
      exact ⟨fun _ => rfl, fun _ => rfl⟩
  · constructor
    · intro h
      simp only [interpolateVector]
      rw [if_neg (by omega), if_neg (by omega), if_pos h]
    · intro h
      have hlastlt : kfs.length - 1 < kfs.length := by omega
      have hh : kfs.headI.Time ≤ kfs.getLastI.Time := by
        rcases kfs with _ | ⟨a, t'⟩
        · exact absurd rfl hne
        · rw [getLastI_eq_get _ hlastlt]
          rcases Nat.eq_zero_or_pos ((a :: t').length - 1) with h0 | hpos
          · simp at h0
            subst h0
            simp at h2
          · have hg := List.pairwise_iff_get.mp hp ⟨0, by simp⟩
              ⟨(a :: t').length - 1, hlastlt⟩ (Fin.mk_lt_mk.mpr hpos)
            simp only [List.headI]
            exact le_of_lt (by simpa using hg)
      simp only [interpolateVector]
      rw [if_neg (by omega), if_neg (by omega),
        if_neg (by push_neg; exact le_of_lt (lt_of_le_of_lt hh h)), if_pos h]

/-- Helper: the float analogue of interpolateVector_clamp. -/
lemma interpolateFloat_clamp (kfs : List CameraKeyframe)
    (hp : kfs.Pairwise (fun a b => a.Time < b.Time))
    (getter : CameraKeyframe → ℚ) (hne : kfs ≠ []) (t : ℚ) :
    (t < kfs.headI.Time →
      interpolateFloat ⟨kfs, some Smoothstep⟩ t getter = getter kfs.headI) ∧
    (t > kfs.getLastI.Time →
      interpolateFloat ⟨kfs, some Smoothstep⟩ t getter = getter kfs.getLastI) := by
  rcases lt_or_ge kfs.length 2 with h2 | h2
  · rcases kfs with _ | ⟨a, t'⟩
    · exact absurd rfl hne
    · have ht : t' = [] := by
        rcases t' with _ | ⟨b, t'⟩
        · rfl
        · simp at h2
          omega
      subst ht
      exact ⟨fun _ => rfl, fun _ => rfl⟩
  · constructor
    · intro h
      simp only [interpolateFloat]
      rw [if_neg (by omega), if_neg (by omega), if_pos h]
    · intro h
      have hlastlt : kfs.length - 1 < kfs.length := by omega
      have hh : kfs.headI.Time ≤ kfs.getLastI.Time := by
        rcases kfs with _ | ⟨a, t'⟩
        · exact absurd rfl hne
        · rw [getLastI_eq_get _ hlastlt]
          rcases Nat.eq_zero_or_pos ((a :: t').length - 1) with h0 | hpos
          · simp at h0
            subst h0
            simp at h2
          · have hg := List.pairwise_iff_get.mp hp ⟨0, by simp⟩
              ⟨(a :: t').length - 1, hlastlt⟩ (Fin.mk_lt_mk.mpr hpos)
            simp only [List.headI]
            exact le_of_lt (by simpa using hg)
      simp only [interpolateFloat]
      rw [if_neg (by omega), if_neg (by omega),
        if_neg (by push_neg; exact le_of_lt (lt_of_le_of_lt hh h)), if_pos h]

/-- C5: for a keyframe path with strictly increasing keyframe times and the
default Smoothstep smoothing, evaluation at the exact time of any keyframe
returns that keyframe's position, target and fov exactly, and evaluation
strictly before the first or strictly after the last keyframe time returns
the boundary keyframe's values unchanged. -/
theorem C5_keyframe_exact_clamp (kfs : List CameraKeyframe)
    (hp : kfs.Pairwise (fun a b => a.Time < b.Time)) :
    (∀ (i : ℕ) (hi : i < kfs.length),
      GetPosition (NewInterpolatedCameraPath kfs) ((kfs.get ⟨i, hi⟩).Time) =
          (kfs.get ⟨i, hi⟩).Position ∧
      GetTarget (NewInterpolatedCameraPath kfs) ((kfs.get ⟨i, hi⟩).Time) =
          (kfs.get ⟨i, hi⟩).Target ∧
      GetFOV (NewInterpolatedCameraPath kfs) ((kfs.get ⟨i, hi⟩).Time) =
          (kfs.get ⟨i, hi⟩).FOV) ∧
    (kfs ≠ [] → ∀ t : ℚ, t < kfs.headI.Time →
      GetPosition (NewInterpolatedCameraPath kfs) t = kfs.headI.Position ∧
      GetTarget (NewInterpolatedCameraPath kfs) t = kfs.headI.Target ∧
      GetFOV (NewInterpolatedCameraPath kfs) t = kfs.headI.FOV) ∧
    (kfs ≠ [] → ∀ t : ℚ, t > kfs.getLastI.Time →
      GetPosition (NewInterpolatedCameraPath kfs) t = kfs.getLastI.Position ∧
      GetTarget (NewInterpolatedCameraPath kfs) t = kfs.getLastI.Target ∧
      GetFOV (NewInterpolatedCameraPath kfs) t = kfs.getLastI.FOV) := by
  refine ⟨?_, ?_, ?_⟩
  · intro i hi
    exact ⟨interpolateVector_at_get kfs hp (fun kf => kf.Position) i hi,
      interpolateVector_at_get kfs hp (fun kf => kf.Target) i hi,
      interpolateFloat_at_get kfs hp (fun kf => kf.FOV) i hi⟩
  · intro hne t ht
    exact ⟨(interpolateVector_clamp kfs hp (fun kf => kf.Position) hne t).1 ht,
      (interpolateVector_clamp kfs hp (fun kf => kf.Target) hne t).1 ht,
      (interpolateFloat_clamp kfs hp (fun kf => kf.FOV) hne t).1 ht⟩
  · intro hne t ht
    exact ⟨(interpolateVector_clamp kfs hp (fun kf => kf.Position) hne t).2 ht,
      (interpolateVector_clamp kfs hp (fun kf => kf.Target) hne t).2 ht,
      (interpolateFloat_clamp kfs hp (fun kf => kf.FOV) hne t).2 ht⟩

/-- A concrete first keyframe. -/
def kfA : CameraKeyframe := ⟨0, ⟨1, 2, 3⟩, ⟨0, 0, 1⟩, 1⟩

/-- A concrete second keyframe. -/
def kfB : CameraKeyframe := ⟨1, ⟨4, 5, 6⟩, ⟨0, 1, 0⟩, 2⟩

/-- A concrete two-keyframe list with strictly increasing times. -/
def kfs2 : List CameraKeyframe := [kfA, kfB]

/-- Witness for C5: on the concrete two-keyframe path, evaluation at the
second keyframe's time 1 returns its position and fov exactly, and evaluation
at -1 (before the first) and at 2 (after the last) clamps. -/
theorem C5_witness :
    GetPosition (NewInterpolatedCameraPath kfs2) 1 = ⟨4, 5, 6⟩ ∧
    GetFOV (NewInterpolatedCameraPath kfs2) 1 = 2 ∧
    GetPosition (NewInterpolatedCameraPath kfs2) (-1) = ⟨1, 2, 3⟩ ∧
    GetTarget (NewInterpolatedCameraPath kfs2) 2 = ⟨0, 1, 0⟩ := by
  have hp : kfs2.Pairwise (fun a b => a.Time < b.Time) := by
    norm_num [kfs2, kfA, kfB]
  have h1 := (C5_keyframe_exact_clamp kfs2 hp).1 1 (by norm_num [kfs2])
  have h2 := (C5_keyframe_exact_clamp kfs2 hp).2.1 (by simp [kfs2]) (-1)
    (by norm_num [kfs2, kfA, kfB])
  have h3 := (C5_keyframe_exact_clamp kfs2 hp).2.2 (by simp [kfs2]) 2
    (by norm_num [kfs2, kfA, kfB, List.getLastI])
  refine ⟨?_, ?_, ?_, ?_⟩
  · have := h1.1
    simpa [kfs2, kfA, kfB] using this
  · have := h1.2.2
    simpa [kfs2, kfA, kfB] using this
  · have := h2.1
    simpa [kfs2, kfA, kfB] using this
  · have := h3.2.1
    simpa [kfs2, kfA, kfB, List.getLastI] using this

end Go3D
